import Mathlib

/-!
Verification of the serial/TCP tunnel (serial_tcp_tunel.py).

The development shallowly embeds the relay-relevant parts of the program:

* `iacFilter` — the inline Telnet IAC filtering loop of `handle_tcp_client`
  (lines 73-83): a while loop over the received buffer that, on seeing the
  byte 0xFF, advances the index by 3 (dropping the marker and the two bytes
  after it), and otherwise copies the byte to the output.
* `handleTcpClientLoop` / `serialToTcpLoop` — the two byte pumps, modelled
  as pure functions over the stream of chunks each one consumes.
* `ProxyState` / `step` — a transition system over the module globals
  (`tcp_socket`, `client_address`, `is_running`) plus instrumentation
  (which handler threads are live, which connections were closed), with one
  event per observable action of the listener loop and the two pump loops.
-/

namespace SerialTcpTunnel

/-- Embedding of the filtering loop of `handle_tcp_client` (source lines
73-83).  The Python loop walks an index `i` over `data`; on `data[i] == 0xFF`
it does `i += 3` (skipping the marker and the next two bytes, clamped at the
end of the buffer), otherwise it appends `data[i]` and does `i += 1`.  The
three 0xFF cases below distinguish how many bytes follow the marker, exactly
as the index jump does. -/
def iacFilter : List Nat → List Nat
  | [] => []
  | b :: rest =>
    if b = 0xFF then
      match rest with
      | _ :: _ :: rest2 => iacFilter rest2
      | _ => []
    else b :: iacFilter rest

theorem iacFilter_nil : iacFilter [] = [] := rfl

theorem iacFilter_group (b c : Nat) (rest : List Nat) :
    iacFilter (0xFF :: b :: c :: rest) = iacFilter rest := by
  simp [iacFilter]

theorem iacFilter_trunc_one (b : Nat) : iacFilter [0xFF, b] = [] := by
  simp [iacFilter]

theorem iacFilter_trunc_zero : iacFilter [0xFF] = [] := by
  simp [iacFilter]

theorem iacFilter_keep (b : Nat) (rest : List Nat) (hb : b ≠ 0xFF) :
    iacFilter (b :: rest) = b :: iacFilter rest := by
  match rest with
  | [] => simp [iacFilter, hb]
  | [x] => simp [iacFilter, hb]
  | x :: y :: t => simp [iacFilter, hb]

/-- Spec-side description of the IAC filter, following the words of the
specification (4.1, P3): the input decomposes into units — a complete 3-byte
group headed by the 0xFF marker, dropped as a unit; a byte that is not part
of such a group, passed through unchanged in order; or a truncated marker at
the very end of the buffer (fewer than two bytes after 0xFF), dropped
together with the remaining bytes. -/
inductive IacFilterSpec : List Nat → List Nat → Prop
  | nil : IacFilterSpec [] []
  | keep {b : Nat} {xs ys : List Nat} :
      b ≠ 0xFF → IacFilterSpec xs ys → IacFilterSpec (b :: xs) (b :: ys)
  | group {b c : Nat} {xs ys : List Nat} :
      IacFilterSpec xs ys → IacFilterSpec (0xFF :: b :: c :: xs) ys
  | truncated {t : List Nat} : t.length ≤ 1 → IacFilterSpec (0xFF :: t) []

theorem iacFilterSpec_iacFilter : ∀ xs : List Nat, IacFilterSpec xs (iacFilter xs) := by
  have H : ∀ (n : Nat) (xs : List Nat), xs.length ≤ n → IacFilterSpec xs (iacFilter xs) := by
    intro n
    induction n with
    | zero =>
      intro xs h
      have hxs : xs = [] := List.eq_nil_of_length_eq_zero (Nat.le_zero.mp h)
      subst hxs
      exact IacFilterSpec.nil
    | succ n ih =>
      intro xs h
      match xs with
      | [] => exact IacFilterSpec.nil
      | b :: rest =>
        by_cases hb : b = 0xFF
        · subst hb
          match rest with
          | [] =>
            rw [iacFilter_trunc_zero]
            exact IacFilterSpec.truncated (by simp)
          | [x] =>
            rw [iacFilter_trunc_one]
            exact IacFilterSpec.truncated (by simp)
          | x :: y :: t =>
            rw [iacFilter_group]
            refine IacFilterSpec.group (ih t ?_)
            simp only [List.length_cons] at h
            omega
        · rw [iacFilter_keep b rest hb]
          refine IacFilterSpec.keep hb (ih rest ?_)
          simp only [List.length_cons] at h
          omega
  exact fun xs => H xs.length xs le_rfl

/-- Inputs on which the filtering loop's index lands on every listed
position: a decomposition into kept non-marker bytes and complete 3-byte
marker groups.  Appending anything after such a prefix leaves the prefix's
filtering unchanged. -/
inductive IacAligned : List Nat → Prop
  | nil : IacAligned []
  | keep {b : Nat} {xs : List Nat} : b ≠ 0xFF → IacAligned xs → IacAligned (b :: xs)
  | group {b c : Nat} {xs : List Nat} : IacAligned xs → IacAligned (0xFF :: b :: c :: xs)

theorem iacFilter_append_of_aligned (p q : List Nat) (hp : IacAligned p) :
    iacFilter (p ++ q) = iacFilter p ++ iacFilter q := by
  induction hp with
  | nil => simp [iacFilter_nil]
  | keep hb _ ih =>
    rw [List.cons_append, iacFilter_keep _ _ hb, iacFilter_keep _ _ hb, ih, List.cons_append]
  | group _ ih =>
    rw [List.cons_append, List.cons_append, List.cons_append,
      iacFilter_group, iacFilter_group, ih]

theorem iacFilter_sublist : ∀ xs : List Nat, (iacFilter xs).Sublist xs := by
  have H : ∀ (n : Nat) (xs : List Nat), xs.length ≤ n → (iacFilter xs).Sublist xs := by
    intro n
    induction n with
    | zero =>
      intro xs h
      have hxs : xs = [] := List.eq_nil_of_length_eq_zero (Nat.le_zero.mp h)
      subst hxs
      exact List.Sublist.refl []
    | succ n ih =>
      intro xs h
      match xs with
      | [] => exact List.Sublist.refl []
      | b :: rest =>
        by_cases hb : b = 0xFF
        · subst hb
          match rest with
          | [] => rw [iacFilter_trunc_zero]; exact List.nil_sublist _
          | [x] => rw [iacFilter_trunc_one]; exact List.nil_sublist _
          | x :: y :: t =>
            rw [iacFilter_group]
            have ht : (iacFilter t).Sublist t := by
              refine ih t ?_
              simp only [List.length_cons] at h
              omega
            exact (((ht.cons y).cons x).cons 0xFF)
        · rw [iacFilter_keep b rest hb]
          refine List.Sublist.cons₂ b (ih rest ?_)
          simp only [List.length_cons] at h
          omega
  exact fun xs => H xs.length xs le_rfl

theorem iacFilter_no_iac : ∀ xs : List Nat, 0xFF ∉ iacFilter xs := by
  have H : ∀ (n : Nat) (xs : List Nat), xs.length ≤ n → 0xFF ∉ iacFilter xs := by
    intro n
    induction n with
    | zero =>
      intro xs h
      have hxs : xs = [] := List.eq_nil_of_length_eq_zero (Nat.le_zero.mp h)
      subst hxs
      simp [iacFilter_nil]
    | succ n ih =>
      intro xs h
      match xs with
      | [] => simp [iacFilter_nil]
      | b :: rest =>
        by_cases hb : b = 0xFF
        · subst hb
          match rest with
          | [] => rw [iacFilter_trunc_zero]; simp
          | [x] => rw [iacFilter_trunc_one]; simp
          | x :: y :: t =>
            rw [iacFilter_group]
            refine ih t ?_
            simp only [List.length_cons] at h
            omega
        · rw [iacFilter_keep b rest hb]
          intro hmem
          rcases List.mem_cons.mp hmem with hEq | hmem2
          · exact hb hEq.symm
          · refine ih rest ?_ hmem2
            simp only [List.length_cons] at h
            omega
  exact fun xs => H xs.length xs le_rfl

/-- C1: for every input byte buffer, the filter output decomposes the input
into complete 3-byte groups headed by 0xFF (dropped as units) and bytes
outside such groups (passed through unchanged, order preserved); in
particular the input [0x41, 0xFF, 0xFB, 0x01, 0x42] filters to
[0x41, 0x42]. -/
theorem iacFilter_drops_groups_keeps_rest :
    (∀ xs : List Nat, IacFilterSpec xs (iacFilter xs)) ∧
      iacFilter [0x41, 0xFF, 0xFB, 0x01, 0x42] = [0x41, 0x42] :=
  ⟨iacFilterSpec_iacFilter, by decide⟩

/-- C6: for every buffer whose filtering loop reaches a 0xFF marker followed
by fewer than two bytes before the buffer end, the filter drops the marker
and all remaining bytes of the buffer; since the filter is a pure function
of the single buffer given, no state is carried to the next call. -/
theorem iacFilter_truncated_tail (p t : List Nat) (hp : IacAligned p)
    (ht : t.length ≤ 1) : iacFilter (p ++ 0xFF :: t) = iacFilter p := by
  rw [iacFilter_append_of_aligned p (0xFF :: t) hp]
  match t, ht with
  | [], _ => rw [iacFilter_trunc_zero, List.append_nil]
  | [x], _ => rw [iacFilter_trunc_one, List.append_nil]

theorem iacFilter_truncated_tail_witness :
    IacAligned [0x41] ∧ ([0xFB] : List Nat).length ≤ 1 ∧
      iacFilter ([0x41] ++ 0xFF :: [0xFB]) = iacFilter [0x41] :=
  ⟨IacAligned.keep (by decide) IacAligned.nil, by decide,
    iacFilter_truncated_tail [0x41] [0xFB]
      (IacAligned.keep (by decide) IacAligned.nil) (by decide)⟩

/-- C10: for every input buffer, the filter output is a subsequence of the
input (hence no longer than the input) and contains no 0xFF byte. -/
theorem iacFilter_sublist_and_no_iac :
    ∀ xs : List Nat, (iacFilter xs).Sublist xs ∧
      (iacFilter xs).length ≤ xs.length ∧ 0xFF ∉ iacFilter xs :=
  fun xs =>
    ⟨iacFilter_sublist xs, (iacFilter_sublist xs).length_le, iacFilter_no_iac xs⟩

/-- Embedding of the receive loop of `handle_tcp_client` (source lines
66-88), driven by the list of results of successive `conn.recv(4096)` calls.
An empty result breaks the loop.  Otherwise the iteration computes the
filtered view `data_to_write = bytes(filtered_data)` and calls
`ser.write(data)` on the raw buffer.  Returns the list of buffers written to
the serial port and the list of computed filtered views, in order. -/
def handleTcpClientLoop : List (List Nat) → List (List Nat) × List (List Nat)
  | [] => ([], [])
  | data :: rest =>
    if data = [] then ([], [])
    else
      ((handleTcpClientLoop rest).1.cons data,
        (handleTcpClientLoop rest).2.cons (iacFilter data))

/-- Embedding of the loop of `serial_to_tcp` (source lines 24-41), driven by
the list of buffers produced by successive polls of the serial port (an
empty buffer stands for a poll that found `ser.in_waiting == 0`).  A
non-empty buffer is passed to `tcp_socket.sendall` verbatim.  Returns the
list of buffers sent to the TCP peer, in order. -/
def serialToTcpLoop : List (List Nat) → List (List Nat)
  | [] => []
  | data :: rest =>
    if data = [] then serialToTcpLoop rest else data :: serialToTcpLoop rest

/-- The buffers the receive loop actually consumes: the longest prefix of
the incoming stream before the first empty (disconnect) result. -/
def receivedChunks (chunks : List (List Nat)) : List (List Nat) :=
  chunks.takeWhile (fun d => !d.isEmpty)

theorem handleTcpClientLoop_eq (chunks : List (List Nat)) :
    handleTcpClientLoop chunks =
      (receivedChunks chunks, (receivedChunks chunks).map iacFilter) := by
  induction chunks with
  | nil => rfl
  | cons data rest ih =>
    by_cases hd : data = []
    · subst hd
      simp [handleTcpClientLoop, receivedChunks, List.takeWhile_cons]
    · have hne : data.isEmpty = false := by
        cases data with
        | nil => exact absurd rfl hd
        | cons a t => rfl
      simp [handleTcpClientLoop, receivedChunks, List.takeWhile_cons, hd, hne, ih]

/-- C2: for every stream of buffers received from the TCP client, the
buffers written to the serial port are exactly the raw received buffers (up
to the disconnect marker), order preserved and untouched by the filter; the
IAC-filtered views are computed separately alongside and do not enter the
serial write payload. -/
theorem serial_writes_are_raw (chunks : List (List Nat)) :
    (handleTcpClientLoop chunks).1 = receivedChunks chunks ∧
      (handleTcpClientLoop chunks).2 = (receivedChunks chunks).map iacFilter := by
  rw [handleTcpClientLoop_eq]
  exact ⟨rfl, rfl⟩

/-- C8: within each relay direction, byte order is preserved end-to-end:
the concatenation of the buffers the serial pump sends to the TCP peer
equals the concatenation of the buffers it read from the serial port, and
the concatenation of the buffers written to the serial port equals the
concatenation of the buffers received from the TCP client, in order. -/
theorem byte_order_preserved (reads chunks : List (List Nat)) :
    (serialToTcpLoop reads).flatten = reads.flatten ∧
      ((handleTcpClientLoop chunks).1).flatten = (receivedChunks chunks).flatten := by
  constructor
  · induction reads with
    | nil => rfl
    | cons data rest ih =>
      by_cases hd : data = []
      · subst hd
        simp [serialToTcpLoop, ih]
      · simp [serialToTcpLoop, hd, ih]
  · rw [handleTcpClientLoop_eq]

/-- A TCP connection handle, identified by a numeric id. -/
abbrev Conn := Nat

/-- The module-level globals of the program (source lines 14-17) together
with observation fields: `sessions` lists the `handle_tcp_client` threads
currently running, `serialAlive` says whether a `serial_to_tcp` thread is in
its loop, and `closedConns` records every connection on which `close()` was
called. -/
structure ProxyState where
  tcp_socket : Option Conn
  client_address : Option Conn
  is_running : Bool
  serialAlive : Bool
  sessions : List Conn
  closedConns : List Conn
deriving DecidableEq

/-- State after module load (lines 14-17): no connection, running. -/
def initState : ProxyState :=
  { tcp_socket := none
    client_address := none
    is_running := true
    serialAlive := false
    sessions := []
    closedConns := [] }

/-- The `finally` block of `handle_tcp_client` (lines 96-101): closes the
socket held in `tcp_socket`, sets `tcp_socket` and `client_address` to
`None`; the handler thread then ends, which removes its session. -/
def handlerFinally (s : ProxyState) : ProxyState :=
  match s.tcp_socket with
  | some c =>
    { s with
      tcp_socket := none
      client_address := none
      closedConns := c :: s.closedConns
      sessions := [] }
  | none => s

/-- The listener iteration on a successful accept (lines 215-225): when
`tcp_socket` is set, the new connection is closed and no handler thread is
started; otherwise the spawned handler stores the connection in the globals
(lines 55-56) and starts the serial thread (lines 61-63). -/
def acceptStep (s : ProxyState) (c : Conn) : ProxyState :=
  match s.tcp_socket with
  | some _ => { s with closedConns := c :: s.closedConns }
  | none =>
    { s with
      tcp_socket := some c
      client_address := some c
      serialAlive := true
      sessions := c :: s.sessions }

/-- One iteration of the handler receive loop (lines 66-88): an empty
result breaks the loop and runs the `finally` block; a non-empty one writes
to the serial port and loops (payloads are modelled by
`handleTcpClientLoop`). -/
def recvStep (s : ProxyState) (data : List Nat) : ProxyState :=
  if s.sessions = [] then s
  else if data = [] then handlerFinally s else s

/-- A `socket.error` or `serial.SerialException` inside the handler loop,
caught at lines 90-95, falling through to the `finally` block. -/
def recvFailStep (s : ProxyState) : ProxyState :=
  if s.sessions = [] then s else handlerFinally s

/-- A `socket.error` raised by `sendall` in `serial_to_tcp`, caught at
lines 36-38: the serial thread breaks out of its loop and ends, touching no
global. -/
def sendErrorStep (s : ProxyState) : ProxyState :=
  if s.serialAlive then { s with serialAlive := false } else s

/-- The serial thread checking its loop condition
`is_running and tcp_socket` (line 24): the thread ends when it fails. -/
def serialPollStep (s : ProxyState) : ProxyState :=
  if s.serialAlive ∧ (s.is_running = false ∨ s.tcp_socket = none) then
    { s with serialAlive := false }
  else s

/-- One observable action of the listener loop or of the two pump loops. -/
inductive Ev where
  | accept (c : Conn)
  | recvChunk (data : List Nat)
  | recvError
  | serialWriteError
  | sendError
  | serialPoll
  | interrupt
deriving DecidableEq

/-- Transition function of the tunnel: dispatches each event to the
corresponding piece of the program; `interrupt` is the operator interrupt,
after which the listener sets `is_running = False` (line 238). -/
def step (s : ProxyState) (e : Ev) : ProxyState :=
  match e with
  | .accept c => acceptStep s c
  | .recvChunk data => recvStep s data
  | .recvError => recvFailStep s
  | .serialWriteError => recvFailStep s
  | .sendError => sendErrorStep s
  | .serialPoll => serialPollStep s
  | .interrupt => { s with is_running := false }

/-- The state reached from startup by a trace of events. -/
def run (evs : List Ev) : ProxyState := evs.foldl step initState

theorem handlerFinally_of_some (s : ProxyState) (c : Conn)
    (h : s.tcp_socket = some c) :
    handlerFinally s =
      { s with
        tcp_socket := none
        client_address := none
        closedConns := c :: s.closedConns
        sessions := [] } := by
  unfold handlerFinally
  rw [h]

theorem handlerFinally_of_none (s : ProxyState) (h : s.tcp_socket = none) :
    handlerFinally s = s := by
  unfold handlerFinally
  rw [h]

theorem acceptStep_busy (s : ProxyState) (c c₀ : Conn)
    (h : s.tcp_socket = some c₀) :
    acceptStep s c = { s with closedConns := c :: s.closedConns } := by
  unfold acceptStep
  rw [h]

theorem acceptStep_free (s : ProxyState) (c : Conn) (h : s.tcp_socket = none) :
    acceptStep s c =
      { s with
        tcp_socket := some c
        client_address := some c
        serialAlive := true
        sessions := c :: s.sessions } := by
  unfold acceptStep
  rw [h]

theorem recvFailStep_active (s : ProxyState) (h : s.sessions ≠ []) :
    recvFailStep s = handlerFinally s := by
  unfold recvFailStep
  rw [if_neg h]

theorem recvStep_disconnect (s : ProxyState) (h : s.sessions ≠ []) :
    recvStep s [] = handlerFinally s := by
  unfold recvStep
  rw [if_neg h, if_pos rfl]

theorem sendErrorStep_alive (s : ProxyState) (h : s.serialAlive = true) :
    sendErrorStep s = { s with serialAlive := false } := by
  unfold sendErrorStep
  rw [if_pos h]

theorem serialPollStep_released (s : ProxyState) (hal : s.serialAlive = true)
    (h : s.tcp_socket = none) :
    serialPollStep s = { s with serialAlive := false } := by
  unfold serialPollStep
  rw [if_pos ⟨hal, Or.inr h⟩]

/-- A view of the listener and handler threads that keeps the cross-thread
timing of the real code: `threading.Thread.start()` (line 225) returns
before the target function begins, so a spawned `handle_tcp_client` thread
sits in `pending` until its first statements run.  The listener's occupancy
check at line 217 reads the global `tcp_socket`, which is assigned only by
the handler thread itself at line 55; nothing synchronises the two. -/
structure ThreadedState where
  tcp_socket : Option Conn
  client_address : Option Conn
  pending : List Conn
  sessions : List Conn
  closedConns : List Conn
deriving DecidableEq

/-- State after startup: no connection, no threads. -/
def threadedInit : ThreadedState :=
  { tcp_socket := none
    client_address := none
    pending := []
    sessions := []
    closedConns := [] }

/-- A scheduling action: the listener thread accepting a connection, or a
previously spawned handler thread getting to run its first statements. -/
inductive ThreadedEv where
  | accept (c : Conn)
  | handlerEntry (c : Conn)
deriving DecidableEq

/-- One transition of the threaded view.
`accept c` is the listener iteration at lines 215-225: if the global
`tcp_socket` is set, the new connection is closed and nothing is spawned;
otherwise a handler thread for `c` is spawned and is pending until
scheduled — the listener assigns no global itself.
`handlerEntry c` is the pending handler thread for `c` starting its body
(lines 55-56): it stores `c` in `tcp_socket` and `client_address`
(overwriting whatever was there) and enters its receive loop, which makes
its session active. -/
def threadedStep (s : ThreadedState) (e : ThreadedEv) : ThreadedState :=
  match e with
  | .accept c =>
    match s.tcp_socket with
    | some _ => { s with closedConns := c :: s.closedConns }
    | none => { s with pending := c :: s.pending }
  | .handlerEntry c =>
    if c ∈ s.pending then
      { s with
        pending := s.pending.erase c
        tcp_socket := some c
        client_address := some c
        sessions := c :: s.sessions }
    else s

/-- The state reached from startup by a schedule of threaded actions. -/
def threadedRun (evs : List ThreadedEv) : ThreadedState :=
  evs.foldl threadedStep threadedInit

/-- C5 fails on the code at this schedule: two connections are accepted
back-to-back before either spawned handler thread runs its first statement.
Both accepts see `tcp_socket` still unset and pass the line-217 check, so
two handler threads are spawned; once both run, two sessions are active at
once, the second one's entry has overwritten `tcp_socket`, and the second
connection was never closed — against the claim that at most one session is
ever active and that a connection accepted while one is active is closed
with no session created. -/
theorem race_two_sessions :
    (threadedRun [ThreadedEv.accept 1, ThreadedEv.accept 2,
        ThreadedEv.handlerEntry 1, ThreadedEv.handlerEntry 2]).sessions =
        [2, 1] ∧
      2 ∉ (threadedRun [ThreadedEv.accept 1, ThreadedEv.accept 2,
        ThreadedEv.handlerEntry 1, ThreadedEv.handlerEntry 2]).closedConns ∧
      (threadedRun [ThreadedEv.accept 1, ThreadedEv.accept 2,
        ThreadedEv.handlerEntry 1, ThreadedEv.handlerEntry 2]).tcp_socket =
        some 2 := by
  decide

/-- A state in which one session for connection `c` is active: the handler
stored `c` in the globals, its thread is the one running session, the serial
thread is in its loop, and the process is running. -/
def Active (s : ProxyState) (c : Conn) : Prop :=
  s.tcp_socket = some c ∧ s.sessions = [c] ∧
    s.serialAlive = true ∧ s.is_running = true

/-- C3 (amended): in an active session, a receive failure in the
TCP-to-serial pump closes the connection, releases the slot, makes the
serial pump exit at its next poll, and lets a following connection attempt
succeed.  A TCP send failure in the serial-to-TCP pump, by contrast, only
terminates that pump: the connection stays open, the slot stays occupied,
and a following connection attempt is rejected until the TCP-to-serial pump
itself fails or the peer disconnects. -/
theorem teardown_asymmetric (s : ProxyState) (c c' : Conn) (h : Active s c) :
    ((step s Ev.recvError).tcp_socket = none ∧
      c ∈ (step s Ev.recvError).closedConns ∧
      (step s Ev.recvError).sessions = [] ∧
      (step (step s Ev.recvError) Ev.serialPoll).serialAlive = false ∧
      (step (step s Ev.recvError) (Ev.accept c')).tcp_socket = some c' ∧
      (step (step s Ev.recvError) (Ev.accept c')).sessions = [c']) ∧
    ((step s Ev.sendError).serialAlive = false ∧
      (step s Ev.sendError).tcp_socket = some c ∧
      (step s Ev.sendError).sessions = [c] ∧
      (step (step s Ev.sendError) (Ev.accept c')).sessions = [c] ∧
      c' ∈ (step (step s Ev.sendError) (Ev.accept c')).closedConns) := by
  obtain ⟨h1, h2, h3, h4⟩ := h
  have hne : s.sessions ≠ [] := by rw [h2]; exact List.cons_ne_nil c []
  have e1 : step s Ev.recvError =
      { s with
        tcp_socket := none
        client_address := none
        closedConns := c :: s.closedConns
        sessions := [] } := by
    show recvFailStep s = _
    rw [recvFailStep_active s hne, handlerFinally_of_some s c h1]
  have e2 : step (step s Ev.recvError) Ev.serialPoll =
      { step s Ev.recvError with serialAlive := false } := by
    show serialPollStep _ = _
    refine serialPollStep_released _ ?_ ?_
    · rw [e1]; exact h3
    · rw [e1]
  have e3 : step (step s Ev.recvError) (Ev.accept c') =
      { step s Ev.recvError with
        tcp_socket := some c'
        client_address := some c'
        serialAlive := true
        sessions := c' :: (step s Ev.recvError).sessions } := by
    show acceptStep _ c' = _
    refine acceptStep_free _ c' ?_
    rw [e1]
  have f1 : step s Ev.sendError = { s with serialAlive := false } := by
    show sendErrorStep s = _
    exact sendErrorStep_alive s h3
  have f2 : step (step s Ev.sendError) (Ev.accept c') =
      { step s Ev.sendError with
        closedConns := c' :: (step s Ev.sendError).closedConns } := by
    show acceptStep _ c' = _
    refine acceptStep_busy _ c' c ?_
    rw [f1]
    exact h1
  refine ⟨⟨?_, ?_, ?_, ?_, ?_, ?_⟩, ?_, ?_, ?_, ?_, ?_⟩
  · rw [e1]
  · rw [e1]; exact List.mem_cons_self c _
  · rw [e1]
  · rw [e2]
  · rw [e3]
  · rw [e3, e1]
  · rw [f1]
  · rw [f1]; exact h1
  · rw [f1]; exact h2
  · rw [f2, f1]; exact h2
  · rw [f2]; exact List.mem_cons_self c' _

theorem teardown_asymmetric_witness :
    ((step (run [Ev.accept 1]) Ev.recvError).tcp_socket = none ∧
      1 ∈ (step (run [Ev.accept 1]) Ev.recvError).closedConns ∧
      (step (run [Ev.accept 1]) Ev.recvError).sessions = [] ∧
      (step (step (run [Ev.accept 1]) Ev.recvError) Ev.serialPoll).serialAlive = false ∧
      (step (step (run [Ev.accept 1]) Ev.recvError) (Ev.accept 2)).tcp_socket = some 2 ∧
      (step (step (run [Ev.accept 1]) Ev.recvError) (Ev.accept 2)).sessions = [2]) ∧
    ((step (run [Ev.accept 1]) Ev.sendError).serialAlive = false ∧
      (step (run [Ev.accept 1]) Ev.sendError).tcp_socket = some 1 ∧
      (step (run [Ev.accept 1]) Ev.sendError).sessions = [1] ∧
      (step (step (run [Ev.accept 1]) Ev.sendError) (Ev.accept 2)).sessions = [1] ∧
      2 ∈ (step (step (run [Ev.accept 1]) Ev.sendError) (Ev.accept 2)).closedConns) :=
  teardown_asymmetric (run [Ev.accept 1]) 1 2
    ⟨by decide, by decide, by decide, by decide⟩

/-- C3 as stated is false on the code: after a TCP send failure in the
serial-to-TCP pump the connection slot is not released — the next connection
attempt is rejected (closed), not served. -/
theorem teardown_claim_counterexample :
    (run [Ev.accept 1, Ev.sendError, Ev.accept 2]).tcp_socket = some 1 ∧
      (run [Ev.accept 1, Ev.sendError, Ev.accept 2]).sessions = [1] ∧
      2 ∈ (run [Ev.accept 1, Ev.sendError, Ev.accept 2]).closedConns := by
  decide

/-- A Python exception raised inside the `serial_to_tcp` loop body. -/
inductive PyExc where
  | socketError (msg : String)
  | serialException (msg : String)
  | otherError (msg : String)

/-- Whether a pump thread returns normally or lets an exception escape. -/
inductive PumpOutcome where
  | exitNormally
  | propagate (e : PyExc)

/-- How `serial_to_tcp` disposes of an exception raised in its loop (source
lines 36-46): a `socket.error` from `sendall` is caught by the inner handler
and breaks the loop; a `serial.SerialException` and any other `Exception`
are caught by the outer handlers; in every case the thread returns
normally. -/
def serial_to_tcp_on_error : PyExc → PumpOutcome
  | .socketError _ => .exitNormally
  | .serialException _ => .exitNormally
  | .otherError _ => .exitNormally

/-- C4 (amended): every exception inside the serial-to-TCP pump is caught
locally and the pump exits without propagating it across the session
boundary; but the pump sets no stop flag — a send failure leaves the shared
state unchanged except that the pump's own loop ends. -/
theorem pump_error_contained (e : PyExc) (s : ProxyState)
    (h : s.serialAlive = true) :
    serial_to_tcp_on_error e = PumpOutcome.exitNormally ∧
      step s Ev.sendError = { s with serialAlive := false } := by
  constructor
  · cases e <;> rfl
  · show sendErrorStep s = _
    exact sendErrorStep_alive s h

theorem pump_error_contained_witness :
    serial_to_tcp_on_error (PyExc.socketError "Broken pipe") =
        PumpOutcome.exitNormally ∧
      step (run [Ev.accept 1]) Ev.sendError =
        { run [Ev.accept 1] with serialAlive := false } :=
  pump_error_contained (PyExc.socketError "Broken pipe") (run [Ev.accept 1])
    (by decide)

/-- C4 as stated is false on the code: after a TCP send failure in the
serial-to-TCP pump, no stop flag has been set — `is_running` is still true
and `tcp_socket` still holds the connection; only the failing pump itself
has exited. -/
theorem pump_error_counterexample :
    (run [Ev.accept 1, Ev.sendError]).is_running = true ∧
      (run [Ev.accept 1, Ev.sendError]).tcp_socket = some 1 ∧
      (run [Ev.accept 1, Ev.sendError]).serialAlive = false := by
  decide

/-- C7: in an active session, a zero-length receive result ends the receive
loop; the handler closes the connection and clears the slot, and the next
connection attempt from any peer succeeds. -/
theorem disconnect_releases_slot (s : ProxyState) (c c' : Conn)
    (h : Active s c) :
    (step s (Ev.recvChunk [])).tcp_socket = none ∧
      c ∈ (step s (Ev.recvChunk [])).closedConns ∧
      (step s (Ev.recvChunk [])).sessions = [] ∧
      (step (step s (Ev.recvChunk [])) (Ev.accept c')).tcp_socket = some c' ∧
      (step (step s (Ev.recvChunk [])) (Ev.accept c')).sessions = [c'] := by
  obtain ⟨h1, h2, h3, h4⟩ := h
  have hne : s.sessions ≠ [] := by rw [h2]; exact List.cons_ne_nil c []
  have e1 : step s (Ev.recvChunk []) =
      { s with
        tcp_socket := none
        client_address := none
        closedConns := c :: s.closedConns
        sessions := [] } := by
    show recvStep s [] = _
    rw [recvStep_disconnect s hne, handlerFinally_of_some s c h1]
  have e2 : step (step s (Ev.recvChunk [])) (Ev.accept c') =
      { step s (Ev.recvChunk []) with
        tcp_socket := some c'
        client_address := some c'
        serialAlive := true
        sessions := c' :: (step s (Ev.recvChunk [])).sessions } := by
    show acceptStep _ c' = _
    refine acceptStep_free _ c' ?_
    rw [e1]
  refine ⟨?_, ?_, ?_, ?_, ?_⟩
  · rw [e1]
  · rw [e1]; exact List.mem_cons_self c _
  · rw [e1]
  · rw [e2]
  · rw [e2, e1]

theorem disconnect_releases_slot_witness :
    (step (run [Ev.accept 1]) (Ev.recvChunk [])).tcp_socket = none ∧
      1 ∈ (step (run [Ev.accept 1]) (Ev.recvChunk [])).closedConns ∧
      (step (run [Ev.accept 1]) (Ev.recvChunk [])).sessions = [] ∧
      (step (step (run [Ev.accept 1]) (Ev.recvChunk [])) (Ev.accept 2)).tcp_socket =
        some 2 ∧
      (step (step (run [Ev.accept 1]) (Ev.recvChunk [])) (Ev.accept 2)).sessions =
        [2] :=
  disconnect_releases_slot (run [Ev.accept 1]) 1 2
    ⟨by decide, by decide, by decide, by decide⟩

/-- The cleanup statements of the `finally` block of `handle_tcp_client`
(lines 99-101) as a fallible operation: `tcp_socket.close()` followed by
`tcp_socket = None` and `client_address = None`.  When `tcp_socket` is
already `None`, the call `tcp_socket.close()` raises an `AttributeError`
instead of doing nothing. -/
def releaseSlot (s : ProxyState) : Except String ProxyState :=
  match s.tcp_socket with
  | some c =>
    Except.ok
      { s with
        tcp_socket := none
        client_address := none
        closedConns := c :: s.closedConns }
  | none => Except.error "AttributeError: NoneType object has no attribute close"

theorem releaseSlot_of_some (s : ProxyState) (c : Conn)
    (h : s.tcp_socket = some c) :
    releaseSlot s =
      Except.ok
        { s with
          tcp_socket := none
          client_address := none
          closedConns := c :: s.closedConns } := by
  unfold releaseSlot
  rw [h]

theorem releaseSlot_of_none (s : ProxyState) (h : s.tcp_socket = none) :
    releaseSlot s =
      Except.error "AttributeError: NoneType object has no attribute close" := by
  unfold releaseSlot
  rw [h]

/-- C9 (amended): running the release sequence on an occupied slot clears
it, but running it a second time, on the already-cleared slot, raises
instead of succeeding — the sequence is not idempotent; the program runs it
exactly once per session, so the failure is never reached. -/
theorem release_not_idempotent (s : ProxyState) (c : Conn)
    (h : s.tcp_socket = some c) :
    releaseSlot s =
        Except.ok
          { s with
            tcp_socket := none
            client_address := none
            closedConns := c :: s.closedConns } ∧
      releaseSlot
          { s with
            tcp_socket := none
            client_address := none
            closedConns := c :: s.closedConns } =
        Except.error "AttributeError: NoneType object has no attribute close" := by
  constructor
  · exact releaseSlot_of_some s c h
  · exact releaseSlot_of_none _ rfl

theorem release_not_idempotent_witness :
    releaseSlot (run [Ev.accept 1]) =
        Except.ok
          { run [Ev.accept 1] with
            tcp_socket := none
            client_address := none
            closedConns := 1 :: (run [Ev.accept 1]).closedConns } ∧
      releaseSlot
          { run [Ev.accept 1] with
            tcp_socket := none
            client_address := none
            closedConns := 1 :: (run [Ev.accept 1]).closedConns } =
        Except.error "AttributeError: NoneType object has no attribute close" :=
  release_not_idempotent (run [Ev.accept 1]) 1 (by decide)

/-- C9 as stated is false on the code: invoking the release sequence a
second time, on the already-cleared slot, does not succeed — it raises. -/
theorem release_second_call_counterexample :
    releaseSlot
        { initState with
          tcp_socket := some 1
          client_address := some 1
          sessions := [1]
          serialAlive := true } =
      Except.ok
        { initState with
          tcp_socket := none
          client_address := none
          closedConns := [1]
          sessions := [1]
          serialAlive := true } ∧
      releaseSlot
          { initState with
            tcp_socket := none
            client_address := none
            closedConns := [1]
            sessions := [1]
            serialAlive := true } =
        Except.error "AttributeError: NoneType object has no attribute close" := by
  constructor
  · rfl
  · rfl

end SerialTcpTunnel
